import Mathlib

/-!
# mint/qc.go: the quick-check harness of go-txfile's internal test helpers

A shallow embedding of `vendor/github.com/elastic/go-txfile/internal/mint/qc.go`:
`SetDefaultGenerators`, `QuickCheck`, `NewRng`, `RngSeed` and `qcSeed`.

Conventions of the embedding.

* A Go `string` is a Lean `String`; the byte tests of `strconv` are made on the
  characters' codes (only the ASCII digits, `+` and `-` are ever accepted, and
  every byte of a multi-byte character is `>= 0x80`, so it is rejected the same
  way).
* `int`, `int64` and `uint64` are `Int`/`Nat`, with an explicit `% 2^64` where
  the Go code can wrap.
* The ambient process state read by `qcSeed` (the `TEST_SEED` variable and the
  wall clock) is an explicit input, one value of `Ambient` per call of `qcSeed`.
* A Go `panic` is the `error` side of `Except Panic`.
* The order in which Go evaluates the two operands of line 48, which the
  language leaves open, is the parameter `order` of `QuickCheck`.
-/

namespace Mint

/-! ## Go runtime and standard library pieces used by qc.go -/

/-- Values a Go panic can carry in this file: the run-time error of an index
expression whose index is out of range, the run-time error of a slice
expression whose upper index is out of range, or the `error` built by
`fmt.Errorf` in `qcSeed` (its message). -/
inductive Panic where
  | indexOutOfRange (index : Int) (length : Nat)
  | sliceOutOfRange (high : Int) (capacity : Nat)
  | error (message : String)
  deriving DecidableEq, Repr

deriving instance DecidableEq for Except

/-- The two sentinel errors of `strconv`: `ErrSyntax` ("invalid syntax") and
`ErrRange` ("value out of range"). -/
inductive ConvErr where
  | ErrSyntax
  | ErrRange
  deriving DecidableEq, Repr

/-- Text of a sentinel error, `ErrSyntax.Error()` and `ErrRange.Error()`. -/
def ConvErr.Error : ConvErr → String
  | .ErrSyntax => "invalid syntax"
  | .ErrRange => "value out of range"

/-- The error type `strconv.NumError`: the failing function, the input and the
sentinel. -/
structure NumError where
  Func : String
  Num : String
  Err : ConvErr
  deriving DecidableEq, Repr

/-- The method `(*NumError).Error()`:
`"strconv." + Func + ": parsing " + Quote(Num) + ": " + Err`.
`strconv.Quote` (Go's string-literal escaping) is not part of this repository and
is taken as the parameter `Quote`. -/
def NumError.Error (Quote : String → String) (e : NumError) : String :=
  "strconv." ++ e.Func ++ ": " ++ "parsing " ++ Quote e.Num ++ ": " ++ e.Err.Error

/-- The constant `maxUint64 = 1<<64 - 1` of `strconv`. -/
def maxUint64 : Nat := 2 ^ 64 - 1

/-- The byte helper `lower(c) = c | ('x' - 'X')` of `strconv`. -/
def lower (c : Nat) : Nat := c ||| 0x20

/-- Digit loop of `strconv.ParseUint(s, 10, 64)` (Go standard library,
strconv/atoi.go) over the remaining bytes `cs`, with the accumulator `n`:
returns the `(uint64, error)` pair of the Go function.
`cutoff = maxUint64/10 + 1`, `maxVal = 1<<64 - 1`; `n *= 10` and `n + d` are
computed modulo `2^64` as in Go. -/
def parseUintLoop (s0 : String) : List Char → Nat → Nat × Option NumError
  | [], n => (n, none)
  | c :: cs, n =>
    let cutoff := maxUint64 / 10 + 1
    let maxVal := 2 ^ 64 - 1
    let b := c.toNat
    -- the digit switch; `none` is the `default:` case
    let d : Option Nat :=
      if '0'.toNat ≤ b ∧ b ≤ '9'.toNat then some (b - '0'.toNat)
      else if 'a'.toNat ≤ lower b ∧ lower b ≤ 'z'.toNat then some (lower b - 'a'.toNat + 10)
      else none
    match d with
    | none => (0, some ⟨"ParseUint", s0, .ErrSyntax⟩)
    | some d =>
      if d ≥ 10 then (0, some ⟨"ParseUint", s0, .ErrSyntax⟩)
      else if n ≥ cutoff then (maxVal, some ⟨"ParseUint", s0, .ErrRange⟩)
      else
        let n10 := (n * 10) % 2 ^ 64
        let n1 := (n10 + d) % 2 ^ 64
        if n1 < n10 ∨ n1 > maxVal then (maxVal, some ⟨"ParseUint", s0, .ErrRange⟩)
        else parseUintLoop s0 cs n1

/-- Embedding of `strconv.ParseUint(s, 10, 64)` (Go standard library,
strconv/atoi.go; not a file of this repository): the empty string is a syntax
error, otherwise the digit loop runs from `n = 0`. With the explicit base 10
there is no leading base marker and no underscore handling. -/
def ParseUint (s : String) : Nat × Option NumError :=
  if s = "" then (0, some ⟨"ParseUint", s, .ErrSyntax⟩)
  else parseUintLoop s s.data 0

/-- Conversion `int64(un)` of a `uint64`: two's complement reinterpretation. -/
def toInt64 (un : Nat) : Int :=
  if un % 2 ^ 64 < 2 ^ 63 then (un % 2 ^ 64 : Nat) else (un % 2 ^ 64 : Nat) - 2 ^ 64

/-- Negation `-n` of an `int64`, wrapping at `-2^63`. -/
def negInt64 (n : Int) : Int :=
  if n = -2 ^ 63 then -2 ^ 63 else -n

/-- Embedding of `strconv.ParseInt(s, 10, 64)` (Go standard library,
strconv/atoi.go; not a file of this repository), which `qcSeed` calls. It
returns the `(int64, error)` pair: pick off a leading sign, convert the rest
with `ParseUint`, pass on an error other than `ErrRange` with `Func` and `Num`
rewritten, then check the magnitude against `cutoff = 1<<63`. -/
def ParseInt (s : String) : Int × Option NumError :=
  if s = "" then (0, some ⟨"ParseInt", s, .ErrSyntax⟩)
  else
    let s0 := s
    -- `s[0] == '+'`, `s[0] == '-'` and `s = s[1:]`
    let (neg, rest) : Bool × String :=
      if s.data.head? = some '+' then (false, ⟨s.data.tail⟩)
      else if s.data.head? = some '-' then (true, ⟨s.data.tail⟩)
      else (false, s)
    let (un, err) := ParseUint rest
    match err.filter (fun e => e.Err != .ErrRange) with
    | some e => (0, some { e with Func := "ParseInt", Num := s0 })
    | none =>
      let cutoff : Nat := 2 ^ 63
      if ¬ neg ∧ un ≥ cutoff then ((cutoff : Int) - 1, some ⟨"ParseInt", s0, .ErrRange⟩)
      else if neg ∧ un > cutoff then (-(cutoff : Int), some ⟨"ParseInt", s0, .ErrRange⟩)
      else
        let n := toInt64 un
        (if neg then negInt64 n else n, none)

/-- Go's `fns[i]` on a slice: a run-time panic unless `0 <= i < len(fns)`. -/
def index {α : Type} (xs : List α) (i : Int) : Except Panic α :=
  if 0 ≤ i then
    match xs[i.toNat]? with
    | some x => .ok x
    | none => .error (.indexOutOfRange i xs.length)
  else .error (.indexOutOfRange i xs.length)

/-- Go's `fns[:hi]` on a slice whose capacity is its length: a run-time panic
unless `0 <= hi <= cap(fns)`. -/
def sliceTo {α : Type} (xs : List α) (hi : Int) : Except Panic (List α) :=
  if 0 ≤ hi ∧ hi ≤ xs.length then .ok (xs.take hi.toNat)
  else .error (.sliceOutOfRange hi xs.length)

/-- Go's `make([]interface{}, n)`: `n` nil interface values (`default`). -/
def make {α : Type} [Inhabited α] (n : Nat) : List α := List.replicate n default

/-- Go's builtin `copy(dst, src)`: overwrites the first `min(len(dst), len(src))`
elements of `dst` and returns that count; the pair is the updated `dst` and the
count. -/
def copy {α : Type} (dst src : List α) : List α × Nat :=
  let n := min dst.length src.length
  (src.take n ++ dst.drop n, n)

/-! ## The ambient process state -/

/-- What one call of `qcSeed` reads from the process: the `TEST_SEED`
environment variable (`none` when unset) and the wall clock, as the `int64`
returned by `time.Now().UnixNano()`. -/
structure Ambient where
  TEST_SEED : Option String
  now : Int
  deriving DecidableEq, Repr

/-- The call `os.Getenv`: the value of the variable, the empty string when it is
unset. -/
def Getenv (var : Option String) : String := var.getD ""

/-- The random source `rand.New(rand.NewSource(seed))`; it is determined by the
seed it was built from. -/
structure Rand where
  seed : Int
  deriving DecidableEq, Repr

/-! ## qc.go -/

/-- Embedding of `qcSeed` (qc.go:81-92). -/
def qcSeed (Quote : String → String) (w : Ambient) : Except Panic Int :=
  let v := Getenv w.TEST_SEED
  if v = "" then .ok w.now
  else
    let (i, err) := ParseInt v
    match err with
    | some e => .error (.error ("invalid seed '" ++ v ++ "': " ++ e.Error Quote))
    | none => .ok i

/-- Embedding of `RngSeed` (qc.go:77-79). -/
def RngSeed (Quote : String → String) (w : Ambient) : Except Panic Int :=
  qcSeed Quote w

/-- Embedding of `NewRng` (qc.go:70-75); `w` is the ambient state seen by the
inner `qcSeed()` call, read only when `seed <= 0`. -/
def NewRng (Quote : String → String) (seed : Int) (w : Ambient) : Except Panic Rand :=
  if seed ≤ 0 then
    match qcSeed Quote w with
    | .error p => .error p
    | .ok seed => .ok ⟨seed⟩
  else .ok ⟨seed⟩

/-- The part of the test context `T` that qc.go uses: the default generators
(`interface{}` values, of type `α`). -/
structure T (α : Type) where
  defaultGenerators : List α

/-- Embedding of `SetDefaultGenerators` (qc.go:32-34). -/
def T.SetDefaultGenerators {α : Type} (_t : T α) (fns : List α) : T α :=
  { defaultGenerators := fns }

/-- What a `QuickCheck` call does that is visible outside it, in order. -/
inductive Event (α ε : Type) where
  /-- The line logged by `t.Log("quick check rng seed: ", seed)`. -/
  | log (seed : Int)
  /-- The call `quick.Check(check, &quick.Config{Rand: rng, Values: qcgen.NewGenerator(check, generators...).Gen})`. -/
  | evaluate (check : α) (rng : Rand) (generators : List α)
  /-- A test failure recorded by `t.NoError`. -/
  | report (err : ε)
  deriving DecidableEq, Repr

/-- Modelled from the spec: `T.Log`, a method of mint's test context that is not
in qc.go, the logging primitive "record this informational line"; here the line
is the seed it states. -/
def T.Log {α ε : Type} (_t : T α) (seed : Int) : List (Event α ε) := [.log seed]

/-- Modelled from the spec: `T.NoError`, a method of mint's test context that is
not in qc.go, the reporting primitive: a failure signalled by the evaluator is
recorded as a (non-fatal) test failure, success emits no report. -/
def T.NoError {α ε : Type} (_t : T α) (err : Option ε) : List (Event α ε) :=
  match err with
  | some e => [.report e]
  | none => []

/-- Result of a `QuickCheck` call: the events it produced and the panic that
ended it, if one did. -/
structure Outcome (α ε : Type) where
  events : List (Event α ε)
  panic : Option Panic
  deriving DecidableEq, Repr

/-- Lines 49-58 of `QuickCheck`: the generators handed on, from the default
generators of the context and the generators of the call. -/
def mergeGenerators {α : Type} [Inhabited α] (defaultGenerators generators : List α) : List α :=
  if defaultGenerators.length > 0 then
    if generators.length > 0 then
      let tmp : List α := make (defaultGenerators.length + generators.length)
      let (tmp, n) := copy tmp defaultGenerators
      let tmp := tmp.take n ++ (copy (tmp.drop n) generators).1
      tmp
    else defaultGenerators
  else generators

/-- Order in which the two operands on the right of line 48,
`fns[L-1]` and `fns[:L-1]`, are evaluated. Neither is a function call, so the Go
specification leaves the order open and the compiler chooses it (the gc compiler
evaluates the slice expression first). -/
inductive OperandOrder where
  | indexFirst
  | sliceFirst
  deriving DecidableEq, Repr

/-- Lines 46-48 of `QuickCheck`: `L := len(fns)` and
`check, generators := fns[L-1], fns[:L-1]`, the two operands evaluated in the
given order; the first operand that is out of range ends the call in its
run-time panic. -/
def splitArgs {α : Type} (order : OperandOrder) (fns : List α) :
    Except Panic (α × List α) :=
  let L : Int := fns.length
  match order with
  | .indexFirst =>
    match index fns (L - 1) with
    | .error p => .error p
    | .ok check =>
      match sliceTo fns (L - 1) with
      | .error p => .error p
      | .ok generators => .ok (check, generators)
  | .sliceFirst =>
    match sliceTo fns (L - 1) with
    | .error p => .error p
    | .ok generators =>
      match index fns (L - 1) with
      | .error p => .error p
      | .ok check => .ok (check, generators)

/-- Embedding of `QuickCheck` (qc.go:45-68). `Check` is the external evaluator
(`quick.Check` driven by `qcgen`), which returns an error or nil; `order` is the
evaluation order of the operands of line 48; `w1` is the ambient state seen by
the call `qcSeed()` of line 60 and `w2` the one seen by the `qcSeed()` inside
`NewRng`. -/
def T.QuickCheck {α ε : Type} [Inhabited α] (Quote : String → String)
    (Check : α → Rand → List α → Option ε) (order : OperandOrder) (t : T α)
    (fns : List α) (w1 w2 : Ambient) : Outcome α ε :=
  match splitArgs order fns with
  | .error p => ⟨[], some p⟩
  | .ok (check, generators) =>
  let generators := mergeGenerators t.defaultGenerators generators
  match qcSeed Quote w1 with
  | .error p => ⟨[], some p⟩
  | .ok seed =>
  match NewRng Quote seed w2 with
  | .error p => ⟨[], some p⟩
  | .ok rng =>
  let logged : List (Event α ε) := t.Log seed
  let err := Check check rng generators
  ⟨logged ++ [.evaluate check rng generators] ++ t.NoError err, none⟩

/-- The run-time panic of line 48 on the empty argument list, where `L-1` is
-1: the panic of the operand evaluated first. -/
def emptyArgsPanic : OperandOrder → Panic
  | .indexFirst => .indexOutOfRange (-1) 0
  | .sliceFirst => .sliceOutOfRange (-1) 0

/-- The value of `strconv.Quote` on a string of printable ASCII characters other
than the double quote and the backslash: the string between double quotes, with
nothing escaped. It stands for `Quote` at such strings. -/
def quotePlain (s : String) : String :=
  String.singleton '"' ++ s ++ String.singleton '"'

/-! ## The words of the specification about seeds -/

/-- The character of the decimal digit `d`. -/
def digitChar (d : Nat) : Char :=
  match d with
  | 0 => '0' | 1 => '1' | 2 => '2' | 3 => '3' | 4 => '4'
  | 5 => '5' | 6 => '6' | 7 => '7' | 8 => '8' | _ => '9'

/-- Decimal digits of `m`, most significant first, without leading zeros
(`0` is rendered `0`); the first argument bounds the number of digits. -/
def natDigits : Nat → Nat → List Char
  | 0, _ => []
  | fuel + 1, m =>
    if m < 10 then [digitChar m] else natDigits fuel (m / 10) ++ [digitChar (m % 10)]

/-- The base-10 decimal rendering of an integer: a minus sign for a negative
one, then the digits of its magnitude. -/
def decimal (n : Int) : String :=
  if n < 0 then ⟨'-' :: natDigits (n.natAbs + 1) n.natAbs⟩
  else ⟨natDigits (n.natAbs + 1) n.natAbs⟩

/-- An ASCII decimal digit. -/
def isDigit (c : Char) : Bool := decide ('0'.toNat ≤ c.toNat ∧ c.toNat ≤ '9'.toNat)

/-- Value of a digit string read in base 10, continuing from `a`. -/
def digitsValue (a : Nat) (cs : List Char) : Nat :=
  cs.foldl (fun a c => 10 * a + (c.toNat - '0'.toNat)) a

/-- The integer a string denotes in base 10: an optional sign `+` or `-`
followed by one or more decimal digits; `none` when the string is not
numeric. -/
def numeric (v : String) : Option Int :=
  let signed := v.data.head? = some '+' ∨ v.data.head? = some '-'
  let ds := if signed then v.data.tail else v.data
  if ds ≠ [] ∧ ds.all isDigit then
    some (if v.data.head? = some '-' then -(digitsValue 0 ds : Int) else digitsValue 0 ds)
  else none

/-- The value of a string that parses as a base-10 signed 64-bit integer:
it is numeric and its value lies in the `int64` range. -/
def int64Of (v : String) : Option Int :=
  (numeric v).filter (fun z => decide (-2 ^ 63 ≤ z ∧ z < 2 ^ 63))

/-- A value of `TEST_SEED` is malformed when it does not parse as a base-10
signed 64-bit integer. -/
def malformed (v : String) : Prop := int64Of v = none

instance (v : String) : Decidable (malformed v) := by
  unfold malformed; infer_instance

/-! ## Lemmas on the digit loop -/

theorem parseUintLoop_nondigit (s0 : String) (c : Char) (cs : List Char) (n : Nat)
    (hc : isDigit c = false) :
    parseUintLoop s0 (c :: cs) n = (0, some ⟨"ParseUint", s0, .ErrSyntax⟩) := by
  have h0 : '0'.toNat = 48 := rfl
  have h9 : '9'.toNat = 57 := rfl
  simp only [isDigit, h0, h9, decide_eq_false_iff_not] at hc
  unfold parseUintLoop
  simp only [h0, h9, if_neg hc]
  split_ifs <;> simp_all

theorem parseUintLoop_digit (s0 : String) (c : Char) (cs : List Char) (n : Nat)
    (hc : isDigit c = true) (hn : n < 2 ^ 64) :
    parseUintLoop s0 (c :: cs) n =
      if 10 * n + (c.toNat - '0'.toNat) < 2 ^ 64
      then parseUintLoop s0 cs (10 * n + (c.toNat - '0'.toNat))
      else (2 ^ 64 - 1, some ⟨"ParseUint", s0, .ErrRange⟩) := by
  have h0 : '0'.toNat = 48 := rfl
  have h9 : '9'.toNat = 57 := rfl
  simp only [isDigit, h0, h9, decide_eq_true_eq] at hc
  rw [parseUintLoop]
  simp only [h0, h9, if_pos hc, maxUint64]
  have hd : ¬ (c.toNat - 48 ≥ 10) := by omega
  simp only [if_neg hd]
  by_cases hcut : n ≥ (2 ^ 64 - 1) / 10 + 1
  · have : ¬ (10 * n + (c.toNat - 48) < 2 ^ 64) := by omega
    simp only [if_pos hcut, if_neg this]
  · simp only [if_neg hcut]
    have h10 : n * 10 % 2 ^ 64 = n * 10 := Nat.mod_eq_of_lt (by omega)
    rw [h10]
    by_cases hov : 10 * n + (c.toNat - 48) < 2 ^ 64
    · have h1 : (n * 10 + (c.toNat - 48)) % 2 ^ 64 = 10 * n + (c.toNat - 48) := by
        rw [Nat.mod_eq_of_lt (by omega)]; omega
      rw [h1, if_pos hov, if_neg (by omega)]
    · have h1 : (n * 10 + (c.toNat - 48)) % 2 ^ 64 = n * 10 + (c.toNat - 48) - 2 ^ 64 := by
        omega
      rw [h1, if_neg hov, if_pos (by omega)]

theorem le_digitsValue (cs : List Char) (a : Nat) : a ≤ digitsValue a cs := by
  induction cs generalizing a with
  | nil => simp [digitsValue]
  | cons c cs ih =>
    have h := ih (10 * a + (c.toNat - '0'.toNat))
    simp only [digitsValue, List.foldl_cons] at h ⊢
    omega

theorem parseUintLoop_digits (s0 : String) (cs : List Char) (n : Nat)
    (hall : cs.all isDigit = true) (hn : n < 2 ^ 64) :
    parseUintLoop s0 cs n =
      if digitsValue n cs < 2 ^ 64 then (digitsValue n cs, none)
      else (2 ^ 64 - 1, some ⟨"ParseUint", s0, .ErrRange⟩) := by
  induction cs generalizing n with
  | nil =>
    simp only [parseUintLoop, digitsValue, List.foldl_nil]
    rw [if_pos hn]
  | cons c cs ih =>
    simp only [List.all_cons, Bool.and_eq_true] at hall
    rw [parseUintLoop_digit s0 c cs n hall.1 hn]
    by_cases hov : 10 * n + (c.toNat - '0'.toNat) < 2 ^ 64
    · rw [if_pos hov, ih _ hall.2 hov]
      simp [digitsValue]
    · have h := le_digitsValue cs (10 * n + (c.toNat - '0'.toNat))
      have h2 : ¬ digitsValue n (c :: cs) < 2 ^ 64 := by
        simp only [digitsValue, List.foldl_cons] at h ⊢
        omega
      rw [if_neg hov, if_neg h2]

theorem parseUintLoop_not_digits (s0 : String) (cs : List Char) (n : Nat)
    (hall : cs.all isDigit = false) (hn : n < 2 ^ 64) :
    parseUintLoop s0 cs n = (0, some ⟨"ParseUint", s0, .ErrSyntax⟩) ∨
    parseUintLoop s0 cs n = (2 ^ 64 - 1, some ⟨"ParseUint", s0, .ErrRange⟩) := by
  induction cs generalizing n with
  | nil => simp at hall
  | cons c cs ih =>
    cases hc : isDigit c with
    | false => exact Or.inl (parseUintLoop_nondigit s0 c cs n hc)
    | true =>
      rw [parseUintLoop_digit s0 c cs n hc hn]
      simp only [List.all_cons, hc, Bool.true_and] at hall
      by_cases hov : 10 * n + (c.toNat - '0'.toNat) < 2 ^ 64
      · rw [if_pos hov]; exact ih _ hall hov
      · rw [if_neg hov]; exact Or.inr rfl

theorem mk_eq_empty (cs : List Char) : ((⟨cs⟩ : String) = "") ↔ cs = [] := by
  constructor
  · intro h; exact congrArg String.data h
  · intro h; subst h; rfl

theorem ParseUint_digits (cs : List Char) (hne : cs ≠ []) (hall : cs.all isDigit = true) :
    ParseUint ⟨cs⟩ =
      if digitsValue 0 cs < 2 ^ 64 then (digitsValue 0 cs, none)
      else (2 ^ 64 - 1, some ⟨"ParseUint", ⟨cs⟩, .ErrRange⟩) := by
  unfold ParseUint
  rw [if_neg (by rw [mk_eq_empty]; exact hne)]
  exact parseUintLoop_digits _ cs 0 hall (by norm_num)

theorem ParseUint_not_digits (cs : List Char) (h : ¬ (cs ≠ [] ∧ cs.all isDigit = true)) :
    ParseUint ⟨cs⟩ = (0, some ⟨"ParseUint", ⟨cs⟩, .ErrSyntax⟩) ∨
    ParseUint ⟨cs⟩ = (2 ^ 64 - 1, some ⟨"ParseUint", ⟨cs⟩, .ErrRange⟩) := by
  unfold ParseUint
  by_cases hne : cs = []
  · rw [if_pos (by rw [mk_eq_empty]; exact hne)]; exact Or.inl rfl
  · rw [if_neg (by rw [mk_eq_empty]; exact hne)]
    have hall : cs.all isDigit = false := by
      cases hb : cs.all isDigit with
      | false => rfl
      | true => exact absurd ⟨hne, hb⟩ h
    exact parseUintLoop_not_digits _ cs 0 hall (by norm_num)

theorem ParseInt_spec (v : String) :
    (∀ z, int64Of v = some z → ParseInt v = (z, none)) ∧
    (int64Of v = none → ∃ x k, ParseInt v = (x, some ⟨"ParseInt", v, k⟩)) := by
  rcases v with ⟨l⟩
  have hpair : (if l.head? = some '+' then (false, (⟨l.tail⟩ : String))
      else if l.head? = some '-' then (true, ⟨l.tail⟩) else (false, ⟨l⟩)) =
      (decide (l.head? = some '-'),
        (⟨if l.head? = some '+' ∨ l.head? = some '-' then l.tail else l⟩ : String)) := by
    by_cases h1 : l.head? = some '+'
    · simp [h1]
    · by_cases h2 : l.head? = some '-'
      · simp [h2]
      · simp [h1, h2]
  unfold int64Of numeric ParseInt
  simp only [hpair]
  generalize hb : (if l.head? = some '+' ∨ l.head? = some '-' then l.tail else l) = body
  by_cases hl : l = []
  · subst hl
    simp at hb
    subst hb
    simp
  · have hne : ¬ ((⟨l⟩ : String) = "") := by rw [mk_eq_empty]; exact hl
    simp only [if_neg hne]
    by_cases hd : body ≠ [] ∧ body.all isDigit = true
    · simp only [ParseUint_digits body hd.1 hd.2, if_pos hd]
      by_cases hneg : l.head? = some '-' <;> by_cases hov : digitsValue 0 body < 2 ^ 64
      · simp only [if_pos hov]
        simp [hneg, Option.filter, toInt64, negInt64]
        generalize digitsValue 0 body = m at hov ⊢
        refine ⟨fun h1 _ => ?_, fun h => ?_⟩
        · rw [if_neg (by omega)]
          congr 1
          split_ifs <;> omega
        · have hbig : 9223372036854775808 < m := by
            by_contra hc
            have := h (by omega)
            omega
          rw [if_pos hbig]
          exact ⟨_, _, rfl⟩
      · simp only [if_neg hov]
        simp [hneg, Option.filter, toInt64, negInt64]
        intro h
        omega
      · simp only [if_pos hov]
        simp [hneg, Option.filter, toInt64, negInt64]
        generalize digitsValue 0 body = m at hov ⊢
        refine ⟨fun _ h2 => ?_, fun h => ?_⟩
        · rw [if_neg (by omega)]
          congr 1
          split_ifs <;> omega
        · have hbig : 9223372036854775808 ≤ m := h (by omega)
          rw [if_pos hbig]
          exact ⟨_, _, rfl⟩
      · simp only [if_neg hov]
        simp [hneg, Option.filter, toInt64, negInt64]
        intro _
        omega
    · rcases ParseUint_not_digits body hd with h | h
      · simp only [h, if_neg hd]
        refine ⟨by simp [Option.filter], fun _ => ?_⟩
        simp [Option.filter]
      · simp only [h, if_neg hd]
        refine ⟨by simp [Option.filter], fun _ => ?_⟩
        by_cases hneg : l.head? = some '-' <;> simp [Option.filter, hneg]

/-! ## Lemmas on the decimal rendering -/

theorem digitChar_spec (d : Nat) (hd : d < 10) :
    isDigit (digitChar d) = true ∧ (digitChar d).toNat - '0'.toNat = d := by
  interval_cases d <;> exact ⟨rfl, rfl⟩

theorem digitsValue_append (a : Nat) (xs : List Char) (c : Char) :
    digitsValue a (xs ++ [c]) = 10 * digitsValue a xs + (c.toNat - '0'.toNat) := by
  simp [digitsValue, List.foldl_append]

theorem natDigits_spec (fuel m : Nat) (h : m < fuel) :
    natDigits fuel m ≠ [] ∧ (natDigits fuel m).all isDigit = true ∧
      digitsValue 0 (natDigits fuel m) = m := by
  induction fuel generalizing m with
  | zero => omega
  | succ fuel ih =>
    unfold natDigits
    by_cases hm : m < 10
    · rw [if_pos hm]
      have hc := digitChar_spec m hm
      refine ⟨by simp, by simp [hc.1], ?_⟩
      simp only [digitsValue, List.foldl_cons, List.foldl_nil]
      omega
    · rw [if_neg hm]
      have hrec := ih (m / 10) (by omega)
      have hc := digitChar_spec (m % 10) (Nat.mod_lt _ (by norm_num))
      refine ⟨by simp, ?_, ?_⟩
      · simp [List.all_append, hrec.2.1, hc.1]
      · rw [digitsValue_append, hrec.2.2, hc.2]
        omega

theorem head_of_digits (l : List Char) (h : l.all isDigit = true) :
    ¬ (l.head? = some '+') ∧ ¬ (l.head? = some '-') := by
  cases l with
  | nil => simp
  | cons c cs =>
    simp only [List.all_cons, Bool.and_eq_true] at h
    simp only [List.head?_cons, Option.some.injEq]
    constructor
    · intro hc; rw [hc] at h; exact absurd h.1 (by decide)
    · intro hc; rw [hc] at h; exact absurd h.1 (by decide)

theorem numeric_decimal (n : Int) : numeric (decimal n) = some n := by
  obtain ⟨hne, hall, hval⟩ := natDigits_spec (n.natAbs + 1) n.natAbs (by omega)
  obtain ⟨hplus, hminus⟩ := head_of_digits _ hall
  unfold numeric decimal
  by_cases hn : n < 0
  · simp only [if_pos hn, List.head?_cons, List.tail_cons, or_true, if_true]
    rw [if_pos ⟨hne, hall⟩, hval]
    congr 1
    omega
  · simp only [if_neg hn, hplus, hminus, or_self, if_false]
    rw [if_pos ⟨hne, hall⟩, hval]
    congr 1
    omega

theorem int64Of_decimal (n : Int) (hlo : -2 ^ 63 ≤ n) (hhi : n < 2 ^ 63) :
    int64Of (decimal n) = some n := by
  unfold int64Of
  rw [numeric_decimal]
  simp only [Option.filter]
  rw [if_pos (by simp only [decide_eq_true_eq]; exact ⟨hlo, hhi⟩)]

/-! ## Lemmas on the seed resolver -/

theorem qcSeed_of_empty (Quote : String → String) (w : Ambient)
    (h : Getenv w.TEST_SEED = "") : qcSeed Quote w = .ok w.now := by
  unfold qcSeed
  simp only [h, if_true]

theorem qcSeed_of_int64 (Quote : String → String) (w : Ambient) (z : Int)
    (hne : Getenv w.TEST_SEED ≠ "") (h : int64Of (Getenv w.TEST_SEED) = some z) :
    qcSeed Quote w = .ok z := by
  unfold qcSeed
  simp only [if_neg hne, (ParseInt_spec _).1 z h]

theorem qcSeed_of_malformed (Quote : String → String) (w : Ambient)
    (hne : Getenv w.TEST_SEED ≠ "") (h : malformed (Getenv w.TEST_SEED)) :
    ∃ k : ConvErr, qcSeed Quote w =
      .error (.error ("invalid seed '" ++ Getenv w.TEST_SEED ++ "': " ++
        NumError.Error Quote ⟨"ParseInt", Getenv w.TEST_SEED, k⟩)) := by
  obtain ⟨x, k, hk⟩ := (ParseInt_spec _).2 h
  refine ⟨k, ?_⟩
  unfold qcSeed
  simp only [if_neg hne, hk]

theorem decimal_ne_empty (n : Int) : decimal n ≠ "" := by
  obtain ⟨hne, -, -⟩ := natDigits_spec (n.natAbs + 1) n.natAbs (by omega)
  unfold decimal
  by_cases hn : n < 0
  · rw [if_pos hn, Ne, mk_eq_empty]; simp
  · rw [if_neg hn, Ne, mk_eq_empty]; exact hne

theorem qcSeed_of_decimal (Quote : String → String) (n now : Int)
    (hlo : -2 ^ 63 ≤ n) (hhi : n < 2 ^ 63) :
    qcSeed Quote ⟨some (decimal n), now⟩ = .ok n :=
  qcSeed_of_int64 Quote _ n (decimal_ne_empty n) (int64Of_decimal n hlo hhi)

/-! ## Lemmas on the argument split and the merge -/

theorem index_last {α : Type} (G : List α) (p : α) :
    index (G ++ [p]) (((G ++ [p]).length : Int) - 1) = .ok p := by
  have hlen : (((G ++ [p]).length : Int) - 1) = (G.length : Int) := by
    simp
  rw [hlen]
  unfold index
  simp

theorem sliceTo_init {α : Type} (G : List α) (p : α) :
    sliceTo (G ++ [p]) (((G ++ [p]).length : Int) - 1) = .ok G := by
  have hlen : (((G ++ [p]).length : Int) - 1) = (G.length : Int) := by
    simp
  rw [hlen]
  unfold sliceTo
  simp

theorem eq_nil_or_snoc {α : Type} (l : List α) : l = [] ∨ ∃ G p, l = G ++ [p] := by
  rcases List.eq_nil_or_concat l with h | ⟨G, p, h⟩
  · exact Or.inl h
  · exact Or.inr ⟨G, p, by rw [h, List.concat_eq_append]⟩

theorem mergeGenerators_eq {α : Type} [Inhabited α] (D G : List α) :
    mergeGenerators D G = D ++ G := by
  unfold mergeGenerators
  by_cases hD : D.length > 0
  · by_cases hG : G.length > 0
    · simp only [if_pos hD, if_pos hG, copy, make, List.length_replicate]
      simp
    · have : G = [] := by
        cases G with
        | nil => rfl
        | cons _ _ => simp at hG
      simp [hD, this]
  · have : D = [] := by
      cases D with
      | nil => rfl
      | cons _ _ => simp at hD
    simp [this]

theorem splitArgs_snoc {α : Type} (order : OperandOrder) (G : List α) (p : α) :
    splitArgs order (G ++ [p]) = .ok (p, G) := by
  unfold splitArgs
  cases order <;> simp only [index_last, sliceTo_init]

theorem splitArgs_nil {α : Type} (order : OperandOrder) :
    splitArgs order ([] : List α) = .error (emptyArgsPanic order) := by
  cases order <;> simp [splitArgs, index, sliceTo, emptyArgsPanic]

theorem QuickCheck_unfold {α ε : Type} [Inhabited α] (Quote : String → String)
    (Check : α → Rand → List α → Option ε) (order : OperandOrder) (t : T α)
    (G : List α) (p : α) (w1 w2 : Ambient) :
    t.QuickCheck Quote Check order (G ++ [p]) w1 w2 =
      match qcSeed Quote w1 with
      | .error e => ⟨[], some e⟩
      | .ok seed =>
        match NewRng Quote seed w2 with
        | .error e => ⟨[], some e⟩
        | .ok rng =>
          ⟨[.log seed, .evaluate p rng (t.defaultGenerators ++ G)] ++
            t.NoError (Check p rng (t.defaultGenerators ++ G)), none⟩ := by
  unfold T.QuickCheck
  simp only [splitArgs_snoc, mergeGenerators_eq]
  rfl

theorem QuickCheck_nil {α ε : Type} [Inhabited α] (Quote : String → String)
    (Check : α → Rand → List α → Option ε) (order : OperandOrder) (t : T α)
    (w1 w2 : Ambient) :
    t.QuickCheck Quote Check order [] w1 w2 = ⟨[], some (emptyArgsPanic order)⟩ := by
  unfold T.QuickCheck
  simp only [splitArgs_nil]

theorem int64Of_range (v : String) (z : Int) (h : int64Of v = some z) :
    -2 ^ 63 ≤ z ∧ z < 2 ^ 63 := by
  unfold int64Of at h
  cases hn : numeric v with
  | none => rw [hn] at h; simp [Option.filter] at h
  | some y =>
    rw [hn] at h
    simp only [Option.filter] at h
    split_ifs at h with hy
    · simp only [decide_eq_true_eq] at hy
      cases h
      exact hy

theorem NewRng_of_decimal (Quote : String → String) (n : Int) (w : Ambient)
    (hlo : -2 ^ 63 ≤ n) (hhi : n < 2 ^ 63) (h : w.TEST_SEED = some (decimal n)) :
    qcSeed Quote w = .ok n ∧ NewRng Quote n w = .ok ⟨n⟩ := by
  have q : qcSeed Quote w = .ok n := by
    have := qcSeed_of_decimal Quote n w.now hlo hhi
    rw [← h] at this
    exact this
  refine ⟨q, ?_⟩
  unfold NewRng
  by_cases hn : n ≤ 0
  · rw [if_pos hn, q]
  · rw [if_neg hn]

theorem QuickCheck_of_seed {α ε : Type} [Inhabited α] (Quote : String → String)
    (Check : α → Rand → List α → Option ε) (order : OperandOrder) (t : T α)
    (G : List α) (p : α) (w1 w2 : Ambient) (seed : Int)
    (h1 : qcSeed Quote w1 = .ok seed) (h2 : NewRng Quote seed w2 = .ok ⟨seed⟩) :
    t.QuickCheck Quote Check order (G ++ [p]) w1 w2 =
      ⟨[.log seed, .evaluate p ⟨seed⟩ (t.defaultGenerators ++ G)] ++
        t.NoError (Check p ⟨seed⟩ (t.defaultGenerators ++ G)), none⟩ := by
  rw [QuickCheck_unfold, h1]
  simp only [h2]

/-! ## The generator lists handed to the evaluator -/

/-- C1: for every default-generator list `D` set on the test context and every
argument list `G ++ [p]`, `QuickCheck` takes the last argument `p` as the
property and the arguments before it as the generators `G`, merges the lists to
exactly `D ++ G` (`G` when `D` is empty, `D` when `G` is empty), and, once the
seed is resolved, calls the evaluator once, with the property `p` and the
generator list `D ++ G`. -/
theorem QuickCheck_generators_defaults_first {α ε : Type} [Inhabited α]
    (Quote : String → String) (Check : α → Rand → List α → Option ε)
    (order : OperandOrder) (t : T α) (D G : List α) (p : α) (w1 w2 : Ambient) :
    index (G ++ [p]) (((G ++ [p]).length : Int) - 1) = .ok p ∧
    sliceTo (G ++ [p]) (((G ++ [p]).length : Int) - 1) = .ok G ∧
    splitArgs order (G ++ [p]) = .ok (p, G) ∧
    mergeGenerators D G = D ++ G ∧
    mergeGenerators [] G = G ∧
    mergeGenerators D [] = D ∧
    (t.SetDefaultGenerators D).QuickCheck Quote Check order (G ++ [p]) w1 w2 =
      match qcSeed Quote w1 with
      | .error e => ⟨[], some e⟩
      | .ok seed =>
        match NewRng Quote seed w2 with
        | .error e => ⟨[], some e⟩
        | .ok rng =>
          ⟨[.log seed, .evaluate p rng (D ++ G)] ++
            (t.SetDefaultGenerators D).NoError (Check p rng (D ++ G)), none⟩ := by
  refine ⟨index_last G p, sliceTo_init G p, splitArgs_snoc order G p,
    mergeGenerators_eq D G, ?_, ?_, ?_⟩
  · rw [mergeGenerators_eq]; simp
  · rw [mergeGenerators_eq]; simp
  · exact QuickCheck_unfold Quote Check order (t.SetDefaultGenerators D) G p w1 w2

/-! ## The seed resolver -/

/-- C2: seed round trip. For every signed 64-bit integer `n`, when `TEST_SEED`
is the base-10 decimal rendering of `n`, `qcSeed` and `RngSeed` return exactly
`n`, whatever the clock reads. -/
theorem qcSeed_decimal_round_trip (Quote : String → String) (n now : Int)
    (hlo : -2 ^ 63 ≤ n) (hhi : n < 2 ^ 63) :
    qcSeed Quote ⟨some (decimal n), now⟩ = .ok n ∧
    RngSeed Quote ⟨some (decimal n), now⟩ = .ok n :=
  ⟨qcSeed_of_decimal Quote n now hlo hhi, qcSeed_of_decimal Quote n now hlo hhi⟩

/-- Witness of C2 at the smallest `int64`, with the clock reading 5. -/
theorem qcSeed_decimal_round_trip_witness :
    (-2 ^ 63 ≤ (-9223372036854775808 : Int) ∧ (-9223372036854775808 : Int) < 2 ^ 63) ∧
    decimal (-9223372036854775808) = "-9223372036854775808" ∧
    qcSeed id ⟨some (decimal (-9223372036854775808)), 5⟩ = .ok (-9223372036854775808) ∧
    RngSeed id ⟨some (decimal (-9223372036854775808)), 5⟩ = .ok (-9223372036854775808) :=
  ⟨⟨by norm_num, by norm_num⟩, by decide,
    qcSeed_decimal_round_trip id (-9223372036854775808) 5 (by norm_num) (by norm_num)⟩

/-- C3: `qcSeed` ends in the fatal failure if and only if the value of
`TEST_SEED` is non-empty and malformed, that is, does not parse as a base-10
signed 64-bit integer (which is exactly when `strconv.ParseInt` reports an
error); it returns a value in all other cases and only then; and the message of
the failure is `invalid seed '<value>': <parse error>`, with the value of
`TEST_SEED` verbatim. -/
theorem qcSeed_fatal_iff_malformed (Quote : String → String) (w : Ambient) :
    ((∃ p, qcSeed Quote w = .error p) ↔
      (Getenv w.TEST_SEED ≠ "" ∧ malformed (Getenv w.TEST_SEED))) ∧
    ((∃ z, qcSeed Quote w = .ok z) ↔
      ¬ (Getenv w.TEST_SEED ≠ "" ∧ malformed (Getenv w.TEST_SEED))) ∧
    (malformed (Getenv w.TEST_SEED) ↔ (ParseInt (Getenv w.TEST_SEED)).2 ≠ none) ∧
    (∀ p, qcSeed Quote w = .error p →
      ∃ k : ConvErr, p = .error ("invalid seed '" ++ Getenv w.TEST_SEED ++ "': " ++
        NumError.Error Quote ⟨"ParseInt", Getenv w.TEST_SEED, k⟩)) := by
  have hparse : malformed (Getenv w.TEST_SEED) ↔ (ParseInt (Getenv w.TEST_SEED)).2 ≠ none := by
    unfold malformed
    cases hi : int64Of (Getenv w.TEST_SEED) with
    | none =>
      obtain ⟨x, k, hk⟩ := (ParseInt_spec _).2 hi
      simp [hk]
    | some z => simp [(ParseInt_spec _).1 z hi]
  by_cases hne : Getenv w.TEST_SEED = ""
  · have hq := qcSeed_of_empty Quote w hne
    refine ⟨?_, ?_, hparse, ?_⟩
    · simp [hq, hne]
    · simp [hq, hne]
    · intro p hp; rw [hq] at hp; cases hp
  · by_cases hm : malformed (Getenv w.TEST_SEED)
    · obtain ⟨k, hk⟩ := qcSeed_of_malformed Quote w hne hm
      refine ⟨?_, ?_, hparse, ?_⟩
      · simp [hk, hne, hm]
      · simp [hk, hne, hm]
      · intro p hp
        rw [hk] at hp
        exact ⟨k, (Except.error.inj hp).symm⟩
    · have hsome : ∃ z, int64Of (Getenv w.TEST_SEED) = some z := by
        unfold malformed at hm
        cases hi : int64Of (Getenv w.TEST_SEED) with
        | none => exact absurd hi hm
        | some z => exact ⟨z, rfl⟩
      obtain ⟨z, hz⟩ := hsome
      have hq := qcSeed_of_int64 Quote w z hne hz
      refine ⟨?_, ?_, hparse, ?_⟩
      · simp [hq, hm]
      · simp [hq, hm]
      · intro p hp; rw [hq] at hp; cases hp

/-- C4: when `TEST_SEED` is unset or the empty string, `qcSeed` returns exactly
the clock reading and does not fail; the result depends on nothing else (not on
which of the two the variable is), so two resolutions return the same seed
exactly when their clock readings are the same, and different seeds for
different readings. -/
theorem qcSeed_unset_is_clock (Quote Quote2 : String → String)
    (env env2 : Option String) (now now2 : Int)
    (h : env = none ∨ env = some "") (h2 : env2 = none ∨ env2 = some "") :
    qcSeed Quote ⟨env, now⟩ = .ok now ∧
    RngSeed Quote ⟨env, now⟩ = .ok now ∧
    (qcSeed Quote ⟨env, now⟩ = qcSeed Quote2 ⟨env2, now2⟩ ↔ now = now2) ∧
    (now ≠ now2 → qcSeed Quote ⟨env, now⟩ ≠ qcSeed Quote2 ⟨env2, now2⟩) := by
  have e1 : Getenv (Ambient.mk env now).TEST_SEED = "" := by
    rcases h with h | h <;> subst h <;> rfl
  have e2 : Getenv (Ambient.mk env2 now2).TEST_SEED = "" := by
    rcases h2 with h | h <;> subst h <;> rfl
  have q1 := qcSeed_of_empty Quote _ e1
  have q2 := qcSeed_of_empty Quote2 _ e2
  simp only at q1 q2
  refine ⟨q1, q1, ?_, ?_⟩
  · rw [q1, q2]
    exact ⟨fun hh => Except.ok.inj hh, fun hh => by rw [hh]⟩
  · intro hne hh
    rw [q1, q2] at hh
    exact hne (Except.ok.inj hh)

/-- Witness of C4: the variable unset at clock reading 1, set to the empty
string at clock reading 2. -/
theorem qcSeed_unset_is_clock_witness :
    qcSeed id ⟨none, 1⟩ = .ok 1 ∧
    RngSeed id ⟨none, 1⟩ = .ok 1 ∧
    (qcSeed id ⟨none, 1⟩ = qcSeed id ⟨some "", 2⟩ ↔ (1 : Int) = 2) ∧
    ((1 : Int) ≠ 2 → qcSeed id ⟨none, 1⟩ ≠ qcSeed id ⟨some "", 2⟩) :=
  qcSeed_unset_is_clock id id none (some "") 1 2 (Or.inl rfl) (Or.inr rfl)

/-! ## Construction of the random source -/

/-- C5, as stated, fails: with `TEST_SEED=42` and the clock reading 7,
`NewRng(0)` seeds the source with 42 and not with the clock reading; and with
`TEST_SEED=-5`, `NewRng(-5)` seeds the source with -5, the supplied value. -/
theorem NewRng_nonpositive_not_clock :
    ((0 : Int) ≤ 0 ∧ NewRng id 0 ⟨some "42", 7⟩ = .ok ⟨42⟩ ∧
      NewRng id 0 ⟨some "42", 7⟩ ≠ .ok ⟨7⟩) ∧
    ((-5 : Int) ≤ 0 ∧ NewRng id (-5) ⟨some "-5", 7⟩ = .ok ⟨-5⟩) := by
  decide

/-- C5, amended: for every supplied seed `s <= 0`, `NewRng` does not use `s` as
given but seeds the source with the result of the seed resolver `qcSeed`: the
clock reading when `TEST_SEED` is unset or empty, the value of `TEST_SEED` when
it parses as a signed 64-bit integer, and the fatal failure of the resolver
(no source) when it is malformed. -/
theorem NewRng_nonpositive_resolves (Quote : String → String) (s : Int) (w : Ambient)
    (hs : s ≤ 0) :
    (NewRng Quote s w =
      match qcSeed Quote w with
      | .error e => .error e
      | .ok seed => .ok ⟨seed⟩) ∧
    (Getenv w.TEST_SEED = "" → NewRng Quote s w = .ok ⟨w.now⟩) ∧
    (∀ z, Getenv w.TEST_SEED ≠ "" → int64Of (Getenv w.TEST_SEED) = some z →
      NewRng Quote s w = .ok ⟨z⟩) ∧
    (Getenv w.TEST_SEED ≠ "" → malformed (Getenv w.TEST_SEED) →
      ∃ k : ConvErr, NewRng Quote s w =
        .error (.error ("invalid seed '" ++ Getenv w.TEST_SEED ++ "': " ++
          NumError.Error Quote ⟨"ParseInt", Getenv w.TEST_SEED, k⟩))) := by
  have hdef : NewRng Quote s w =
      match qcSeed Quote w with
      | .error e => .error e
      | .ok seed => .ok ⟨seed⟩ := by
    unfold NewRng
    rw [if_pos hs]
  refine ⟨hdef, ?_, ?_, ?_⟩
  · intro he
    rw [hdef, qcSeed_of_empty Quote w he]
  · intro z hne hz
    rw [hdef, qcSeed_of_int64 Quote w z hne hz]
  · intro hne hm
    obtain ⟨k, hk⟩ := qcSeed_of_malformed Quote w hne hm
    exact ⟨k, by rw [hdef, hk]⟩

/-- Witness of C5 amended: `NewRng(0)` with `TEST_SEED` unset and the clock
reading 7. -/
theorem NewRng_nonpositive_resolves_witness :
    (0 : Int) ≤ 0 ∧ NewRng id 0 ⟨none, 7⟩ = .ok ⟨7⟩ :=
  ⟨le_refl 0, (NewRng_nonpositive_resolves id 0 ⟨none, 7⟩ (le_refl 0)).2.1 rfl⟩

/-- C6, as stated, fails: with `TEST_SEED` unset, two calls `NewRng(0)` made at
the clock readings 1 and 2 seed their sources with 1 and with 2. -/
theorem NewRng_zero_not_deterministic :
    NewRng id 0 ⟨none, 1⟩ = .ok ⟨1⟩ ∧ NewRng id 0 ⟨none, 2⟩ = .ok ⟨2⟩ ∧
    NewRng id 0 ⟨none, 1⟩ ≠ NewRng id 0 ⟨none, 2⟩ := by
  decide

/-- C6, amended: for every seed `s > 0`, two independent calls `NewRng(s)`,
made under any two configuration states and any two clock readings, both
succeed and seed their sources with `s`, hence with the same value. -/
theorem NewRng_positive_deterministic (Quote Quote2 : String → String) (s : Int)
    (w w2 : Ambient) (hs : 0 < s) :
    NewRng Quote s w = .ok ⟨s⟩ ∧ NewRng Quote2 s w2 = .ok ⟨s⟩ ∧
    NewRng Quote s w = NewRng Quote2 s w2 := by
  have h : ∀ (Q : String → String) (a : Ambient), NewRng Q s a = .ok ⟨s⟩ := by
    intro Q a
    unfold NewRng
    rw [if_neg (by omega)]
  exact ⟨h Quote w, h Quote2 w2, by rw [h Quote w, h Quote2 w2]⟩

/-- Witness of C6 amended: `NewRng(3)` with `TEST_SEED` unset at clock reading
1, and with a malformed `TEST_SEED` at clock reading 2. -/
theorem NewRng_positive_deterministic_witness :
    (0 : Int) < 3 ∧ NewRng id 3 ⟨none, 1⟩ = .ok ⟨3⟩ ∧
    NewRng id 3 ⟨some "not-a-number", 2⟩ = .ok ⟨3⟩ ∧
    NewRng id 3 ⟨none, 1⟩ = NewRng id 3 ⟨some "not-a-number", 2⟩ :=
  ⟨by norm_num,
    NewRng_positive_deterministic id id 3 ⟨none, 1⟩ ⟨some "not-a-number", 2⟩ (by norm_num)⟩

/-! ## QuickCheck and the seed -/

/-- C7: configuration-sourced seeds are honored end to end. For every signed
64-bit integer `n`, non-positive ones included, if `TEST_SEED` is the decimal
rendering of `n` at both seed resolutions of the call, `QuickCheck` does not
fail, logs `n` and hands the evaluator a random source seeded with exactly
`n`. -/
theorem QuickCheck_honors_configured_seed {α ε : Type} [Inhabited α]
    (Quote : String → String) (Check : α → Rand → List α → Option ε)
    (order : OperandOrder) (t : T α) (G : List α) (p : α) (n : Int) (w1 w2 : Ambient)
    (hlo : -2 ^ 63 ≤ n) (hhi : n < 2 ^ 63)
    (h1 : w1.TEST_SEED = some (decimal n)) (h2 : w2.TEST_SEED = some (decimal n)) :
    NewRng Quote n w2 = .ok ⟨n⟩ ∧
    t.QuickCheck Quote Check order (G ++ [p]) w1 w2 =
      ⟨[.log n, .evaluate p ⟨n⟩ (t.defaultGenerators ++ G)] ++
        t.NoError (Check p ⟨n⟩ (t.defaultGenerators ++ G)), none⟩ := by
  have q1 : qcSeed Quote w1 = .ok n := by
    have := qcSeed_of_decimal Quote n w1.now hlo hhi
    rw [← h1] at this
    exact this
  have q2 : qcSeed Quote w2 = .ok n := by
    have := qcSeed_of_decimal Quote n w2.now hlo hhi
    rw [← h2] at this
    exact this
  have hr : NewRng Quote n w2 = .ok ⟨n⟩ := by
    unfold NewRng
    by_cases hn : n ≤ 0
    · rw [if_pos hn, q2]
    · rw [if_neg hn]
  refine ⟨hr, ?_⟩
  rw [QuickCheck_unfold, q1]
  simp only [hr]

/-- Witness of C7: `TEST_SEED=-7`, one default generator, one generator of the
call, an evaluator that reports success. -/
theorem QuickCheck_honors_configured_seed_witness :
    (-2 ^ 63 ≤ (-7 : Int) ∧ (-7 : Int) < 2 ^ 63) ∧
    decimal (-7) = "-7" ∧
    NewRng id (-7) ⟨some (decimal (-7)), 12⟩ = .ok ⟨-7⟩ ∧
    (T.mk [1]).QuickCheck id (fun _ _ _ => (none : Option Unit)) .sliceFirst ([2] ++ [3])
        ⟨some (decimal (-7)), 11⟩ ⟨some (decimal (-7)), 12⟩ =
      ⟨[.log (-7), .evaluate 3 ⟨-7⟩ ([1] ++ [2])] ++
        (T.mk [1]).NoError ((fun _ _ _ => (none : Option Unit)) 3 (Rand.mk (-7)) ([1] ++ [2])),
        none⟩ :=
  ⟨⟨by norm_num, by norm_num⟩, by decide,
    QuickCheck_honors_configured_seed id (fun _ _ _ => (none : Option Unit)) .sliceFirst
      (T.mk [1]) [2] 3 (-7) ⟨some (decimal (-7)), 11⟩ ⟨some (decimal (-7)), 12⟩
      (by norm_num) (by norm_num) rfl rfl⟩

/-- C8, as stated, fails for the empty argument list: with the malformed
`TEST_SEED=not-a-number`, `QuickCheck()` ends at line 48 in the run-time panic
of the operand evaluated first (the slice expression or the index expression),
before `qcSeed` is called; that panic is not the fatal failure of the seed
resolver, which `qcSeed` raises in that state with the message
`invalid seed 'not-a-number': strconv.ParseInt: parsing "not-a-number": invalid syntax`. -/
theorem QuickCheck_no_args_not_seed_failure :
    (Getenv (some "not-a-number") ≠ "" ∧ malformed (Getenv (some "not-a-number"))) ∧
    quotePlain "not-a-number" = "\"not-a-number\"" ∧
    qcSeed quotePlain ⟨some "not-a-number", 1⟩ =
      .error (.error ("invalid seed 'not-a-number': strconv.ParseInt: parsing " ++
        quotePlain "not-a-number" ++ ": invalid syntax")) ∧
    (T.mk ([] : List Nat)).QuickCheck quotePlain (fun _ _ _ => (none : Option Unit))
        .sliceFirst [] ⟨some "not-a-number", 1⟩ ⟨some "not-a-number", 2⟩ =
      ⟨[], some (.sliceOutOfRange (-1) 0)⟩ ∧
    (T.mk ([] : List Nat)).QuickCheck quotePlain (fun _ _ _ => (none : Option Unit))
        .indexFirst [] ⟨some "not-a-number", 1⟩ ⟨some "not-a-number", 2⟩ =
      ⟨[], some (.indexOutOfRange (-1) 0)⟩ ∧
    (∀ message, Panic.sliceOutOfRange (-1) 0 ≠ Panic.error message) ∧
    (∀ message, Panic.indexOutOfRange (-1) 0 ≠ Panic.error message) :=
  ⟨by decide, by decide, by decide, by decide, by decide,
    fun _ h => Panic.noConfusion h, fun _ h => Panic.noConfusion h⟩

/-- C8, amended: for every non-empty argument list `G ++ [p]` and every
default-generator list, if `TEST_SEED` is non-empty and malformed then
`QuickCheck` ends in the fatal failure of the seed resolver, whose message
carries the malformed value, and produces no event: the evaluator is not
invoked, no seed line is logged and no test failure is reported. For every
argument list, the empty one included, the call produces no event and ends in
a panic. -/
theorem QuickCheck_malformed_seed_aborts {α ε : Type} [Inhabited α]
    (Quote : String → String) (Check : α → Rand → List α → Option ε)
    (order : OperandOrder) (t : T α) (G : List α) (p : α) (w1 w2 : Ambient)
    (hne : Getenv w1.TEST_SEED ≠ "") (hm : malformed (Getenv w1.TEST_SEED)) :
    (∃ k : ConvErr, t.QuickCheck Quote Check order (G ++ [p]) w1 w2 =
      ⟨[], some (.error ("invalid seed '" ++ Getenv w1.TEST_SEED ++ "': " ++
        NumError.Error Quote ⟨"ParseInt", Getenv w1.TEST_SEED, k⟩))⟩) ∧
    (∀ fns : List α, (t.QuickCheck Quote Check order fns w1 w2).events = [] ∧
      (t.QuickCheck Quote Check order fns w1 w2).panic ≠ none) := by
  obtain ⟨k, hk⟩ := qcSeed_of_malformed Quote w1 hne hm
  have hcall : ∀ (G : List α) (p : α), t.QuickCheck Quote Check order (G ++ [p]) w1 w2 =
      ⟨[], some (.error ("invalid seed '" ++ Getenv w1.TEST_SEED ++ "': " ++
        NumError.Error Quote ⟨"ParseInt", Getenv w1.TEST_SEED, k⟩))⟩ := by
    intro G p
    rw [QuickCheck_unfold, hk]
  refine ⟨⟨k, hcall G p⟩, ?_⟩
  intro fns
  rcases eq_nil_or_snoc fns with h | ⟨G, p, h⟩
  · subst h
    rw [QuickCheck_nil]
    exact ⟨rfl, by simp⟩
  · subst h
    rw [hcall G p]
    exact ⟨rfl, by simp⟩

/-- Witness of C8 amended: `TEST_SEED=not-a-number`, one default generator and
the argument list `[2, 3]`; the failure is the one with the message
`invalid seed 'not-a-number': strconv.ParseInt: parsing "not-a-number": invalid syntax`. -/
theorem QuickCheck_malformed_seed_aborts_witness :
    (Getenv (some "not-a-number") ≠ "" ∧ malformed (Getenv (some "not-a-number"))) ∧
    (T.mk [1]).QuickCheck quotePlain (fun _ _ _ => (none : Option Unit)) .sliceFirst
        ([2] ++ [3]) ⟨some "not-a-number", 1⟩ ⟨some "not-a-number", 2⟩ =
      ⟨[], some (.error ("invalid seed 'not-a-number': strconv.ParseInt: parsing " ++
        quotePlain "not-a-number" ++ ": invalid syntax"))⟩ ∧
    (∃ k : ConvErr, (T.mk [1]).QuickCheck quotePlain (fun _ _ _ => (none : Option Unit))
        .sliceFirst ([2] ++ [3]) ⟨some "not-a-number", 1⟩ ⟨some "not-a-number", 2⟩ =
      ⟨[], some (.error ("invalid seed '" ++ Getenv (some "not-a-number") ++ "': " ++
        NumError.Error quotePlain ⟨"ParseInt", Getenv (some "not-a-number"), k⟩))⟩) :=
  ⟨⟨by decide, by decide⟩, by decide,
    (QuickCheck_malformed_seed_aborts quotePlain (fun _ _ _ => (none : Option Unit))
      .sliceFirst (T.mk [1]) [2] 3 ⟨some "not-a-number", 1⟩ ⟨some "not-a-number", 2⟩
      (by decide) (by decide)).1⟩

/-- C9, as stated, fails: with `TEST_SEED` unset and the clock readings -1000
at the resolution of line 60 and -400 at the resolution inside `NewRng`,
`QuickCheck` does not abort, logs the seed -1000 and hands the evaluator a
source seeded with -400; a rerun with `TEST_SEED=-1000` hands the evaluator a
source seeded with -1000, a different one. -/
theorem QuickCheck_logged_seed_not_used :
    (T.mk ([] : List Nat)).QuickCheck quotePlain (fun _ _ _ => (none : Option Unit))
        .sliceFirst [0] ⟨none, -1000⟩ ⟨none, -400⟩ =
      ⟨[.log (-1000), .evaluate 0 ⟨-400⟩ []], none⟩ ∧
    (T.mk ([] : List Nat)).QuickCheck quotePlain (fun _ _ _ => (none : Option Unit))
        .sliceFirst [0] ⟨some "-1000", 5⟩ ⟨some "-1000", 6⟩ =
      ⟨[.log (-1000), .evaluate 0 ⟨-1000⟩ []], none⟩ ∧
    (Rand.mk (-400) ≠ Rand.mk (-1000)) := by
  decide

/-- C9, amended: for every `QuickCheck` invocation on `G ++ [p]` in which
`TEST_SEED` is the same at both seed resolutions and either `TEST_SEED` is
non-empty, or the first clock reading is positive, or the two clock readings
are equal (the readings being `int64` values): either the call aborts in the
failure of the seed resolver, or the seed written to the log line is the seed
of the source handed to the evaluator, and a rerun with `TEST_SEED` set to the
decimal rendering of the logged seed has the same outcome under every pair of
clock readings. -/
theorem QuickCheck_logged_seed_is_used {α ε : Type} [Inhabited α]
    (Quote : String → String) (Check : α → Rand → List α → Option ε)
    (order : OperandOrder) (t : T α) (G : List α) (p : α) (w1 w2 : Ambient)
    (hlo : -2 ^ 63 ≤ w1.now) (hhi : w1.now < 2 ^ 63)
    (henv : w2.TEST_SEED = w1.TEST_SEED)
    (h : Getenv w1.TEST_SEED ≠ "" ∨ 0 < w1.now ∨ w2.now = w1.now) :
    (∃ seed, qcSeed Quote w1 = .ok seed ∧ NewRng Quote seed w2 = .ok ⟨seed⟩ ∧
      t.QuickCheck Quote Check order (G ++ [p]) w1 w2 =
        ⟨[.log seed, .evaluate p ⟨seed⟩ (t.defaultGenerators ++ G)] ++
          t.NoError (Check p ⟨seed⟩ (t.defaultGenerators ++ G)), none⟩ ∧
      ∀ r1 r2 : Int,
        t.QuickCheck Quote Check order (G ++ [p])
            ⟨some (decimal seed), r1⟩ ⟨some (decimal seed), r2⟩ =
          t.QuickCheck Quote Check order (G ++ [p]) w1 w2) ∨
    (∃ e, qcSeed Quote w1 = .error e ∧
      t.QuickCheck Quote Check order (G ++ [p]) w1 w2 = ⟨[], some e⟩) := by
  have key : ∀ seed, -2 ^ 63 ≤ seed → seed < 2 ^ 63 → qcSeed Quote w1 = .ok seed →
      NewRng Quote seed w2 = .ok ⟨seed⟩ →
      ∃ seed, qcSeed Quote w1 = .ok seed ∧ NewRng Quote seed w2 = .ok ⟨seed⟩ ∧
        t.QuickCheck Quote Check order (G ++ [p]) w1 w2 =
          ⟨[.log seed, .evaluate p ⟨seed⟩ (t.defaultGenerators ++ G)] ++
            t.NoError (Check p ⟨seed⟩ (t.defaultGenerators ++ G)), none⟩ ∧
        ∀ r1 r2 : Int,
          t.QuickCheck Quote Check order (G ++ [p])
              ⟨some (decimal seed), r1⟩ ⟨some (decimal seed), r2⟩ =
            t.QuickCheck Quote Check order (G ++ [p]) w1 w2 := by
    intro seed slo shi q1 q2
    have hrun := QuickCheck_of_seed Quote Check order t G p w1 w2 seed q1 q2
    refine ⟨seed, q1, q2, hrun, ?_⟩
    intro r1 r2
    have d1 := NewRng_of_decimal Quote seed ⟨some (decimal seed), r1⟩ slo shi rfl
    have d2 := NewRng_of_decimal Quote seed ⟨some (decimal seed), r2⟩ slo shi rfl
    rw [hrun, QuickCheck_of_seed Quote Check order t G p _ _ seed d1.1 d2.2]
  by_cases hv : Getenv w1.TEST_SEED = ""
  · have hv2 : Getenv w2.TEST_SEED = "" := by rw [henv]; exact hv
    have q1 := qcSeed_of_empty Quote w1 hv
    have q2 : NewRng Quote w1.now w2 = .ok ⟨w1.now⟩ := by
      unfold NewRng
      by_cases hn : w1.now ≤ 0
      · have heq : w2.now = w1.now := by
          rcases h with h | h | h
          · exact absurd hv h
          · omega
          · exact h
        rw [if_pos hn, qcSeed_of_empty Quote w2 hv2, heq]
      · rw [if_neg hn]
    exact Or.inl (key w1.now hlo hhi q1 q2)
  · cases hi : int64Of (Getenv w1.TEST_SEED) with
    | none =>
      obtain ⟨k, hk⟩ := qcSeed_of_malformed Quote w1 hv hi
      refine Or.inr ⟨_, hk, ?_⟩
      rw [QuickCheck_unfold, hk]
    | some z =>
      have hv2 : Getenv w2.TEST_SEED ≠ "" := by rw [henv]; exact hv
      have hi2 : int64Of (Getenv w2.TEST_SEED) = some z := by rw [henv]; exact hi
      have q1 := qcSeed_of_int64 Quote w1 z hv hi
      have q2 : NewRng Quote z w2 = .ok ⟨z⟩ := by
        unfold NewRng
        by_cases hn : z ≤ 0
        · rw [if_pos hn, qcSeed_of_int64 Quote w2 z hv2 hi2]
        · rw [if_neg hn]
      obtain ⟨zlo, zhi⟩ := int64Of_range _ z hi
      exact Or.inl (key z zlo zhi q1 q2)

/-- Witness of C9 amended: `TEST_SEED` unset, the clock reading 1000 at line 60
and 1600 inside `NewRng`; the call logs 1000 and evaluates with a source seeded
with 1000. -/
theorem QuickCheck_logged_seed_is_used_witness :
    ((-2 ^ 63 ≤ (1000 : Int) ∧ (1000 : Int) < 2 ^ 63) ∧ (0 : Int) < 1000) ∧
    (T.mk [1]).QuickCheck quotePlain (fun _ _ _ => (none : Option Unit)) .sliceFirst
        ([2] ++ [3]) ⟨none, 1000⟩ ⟨none, 1600⟩ =
      ⟨[.log 1000, .evaluate 3 ⟨1000⟩ [1, 2]], none⟩ ∧
    ((∃ seed, qcSeed quotePlain ⟨none, 1000⟩ = .ok seed ∧
        NewRng quotePlain seed ⟨none, 1600⟩ = .ok ⟨seed⟩ ∧
        (T.mk [1]).QuickCheck quotePlain (fun _ _ _ => (none : Option Unit)) .sliceFirst
            ([2] ++ [3]) ⟨none, 1000⟩ ⟨none, 1600⟩ =
          ⟨[.log seed, .evaluate 3 ⟨seed⟩ ((T.mk [1]).defaultGenerators ++ [2])] ++
            (T.mk [1]).NoError
              ((fun _ _ _ => (none : Option Unit)) 3 (Rand.mk seed)
                ((T.mk [1]).defaultGenerators ++ [2])), none⟩ ∧
        ∀ r1 r2 : Int,
          (T.mk [1]).QuickCheck quotePlain (fun _ _ _ => (none : Option Unit)) .sliceFirst
              ([2] ++ [3]) ⟨some (decimal seed), r1⟩ ⟨some (decimal seed), r2⟩ =
            (T.mk [1]).QuickCheck quotePlain (fun _ _ _ => (none : Option Unit)) .sliceFirst
              ([2] ++ [3]) ⟨none, 1000⟩ ⟨none, 1600⟩) ∨
      (∃ e, qcSeed quotePlain ⟨none, 1000⟩ = .error e ∧
        (T.mk [1]).QuickCheck quotePlain (fun _ _ _ => (none : Option Unit)) .sliceFirst
            ([2] ++ [3]) ⟨none, 1000⟩ ⟨none, 1600⟩ = ⟨[], some e⟩)) :=
  ⟨⟨⟨by norm_num, by norm_num⟩, by norm_num⟩, by decide,
    QuickCheck_logged_seed_is_used quotePlain (fun _ _ _ => (none : Option Unit))
      .sliceFirst (T.mk [1]) [2] 3 ⟨none, 1000⟩ ⟨none, 1600⟩
      (by norm_num) (by norm_num) rfl (Or.inr (Or.inl (by norm_num)))⟩

/-- C10: the split of the argument list succeeds exactly on the non-empty
lists. The index `len-1` is in bounds if and only if the list has length at
least 1, and so is the slice `[:len-1]`; exactly then the list is `G ++ [p]`,
the split gives the property `p` and the generators `G`, and `QuickCheck` goes
on with them to the seed resolution (its outcome is the one computed from `p`
and `G`, never a bounds panic). For the empty list the index `len-1` is -1 and
out of range in both operands of line 48, and `QuickCheck` ends in the run-time
out-of-range panic of the operand evaluated first, with no event, whatever
`TEST_SEED` and the clock are: the seed is not resolved, nothing is logged and
the evaluator is not invoked. -/
theorem QuickCheck_split_total_iff_nonempty {α ε : Type} [Inhabited α]
    (Quote : String → String) (Check : α → Rand → List α → Option ε)
    (order : OperandOrder) (t : T α) (fns : List α) (w1 w2 : Ambient) :
    ((∃ p, index fns ((fns.length : Int) - 1) = .ok p) ↔ 1 ≤ fns.length) ∧
    ((∃ G, sliceTo fns ((fns.length : Int) - 1) = .ok G) ↔ 1 ≤ fns.length) ∧
    ((∃ p G, fns = G ++ [p] ∧ index fns ((fns.length : Int) - 1) = .ok p ∧
        sliceTo fns ((fns.length : Int) - 1) = .ok G ∧
        splitArgs order fns = .ok (p, G) ∧
        t.QuickCheck Quote Check order fns w1 w2 =
          match qcSeed Quote w1 with
          | .error e => ⟨[], some e⟩
          | .ok seed =>
            match NewRng Quote seed w2 with
            | .error e => ⟨[], some e⟩
            | .ok rng =>
              ⟨[.log seed, .evaluate p rng (t.defaultGenerators ++ G)] ++
                t.NoError (Check p rng (t.defaultGenerators ++ G)), none⟩) ↔
      1 ≤ fns.length) ∧
    index ([] : List α) ((([] : List α).length : Int) - 1) =
      .error (.indexOutOfRange (-1) 0) ∧
    sliceTo ([] : List α) ((([] : List α).length : Int) - 1) =
      .error (.sliceOutOfRange (-1) 0) ∧
    splitArgs order ([] : List α) = .error (emptyArgsPanic order) ∧
    (emptyArgsPanic order = .indexOutOfRange (-1) 0 ∨
      emptyArgsPanic order = .sliceOutOfRange (-1) 0) ∧
    t.QuickCheck Quote Check order [] w1 w2 = ⟨[], some (emptyArgsPanic order)⟩ := by
  have hidx : index ([] : List α) ((([] : List α).length : Int) - 1) =
      .error (.indexOutOfRange (-1) 0) := by
    simp [index]
  have hsl : sliceTo ([] : List α) ((([] : List α).length : Int) - 1) =
      .error (.sliceOutOfRange (-1) 0) := by
    simp [sliceTo]
  refine ⟨?_, ?_, ?_, hidx, hsl, splitArgs_nil order, ?_,
    QuickCheck_nil Quote Check order t w1 w2⟩
  · rcases eq_nil_or_snoc fns with h | ⟨G, p, h⟩
    · subst h
      simp [index]
    · subst h
      exact ⟨fun _ => by simp, fun _ => ⟨p, index_last G p⟩⟩
  · rcases eq_nil_or_snoc fns with h | ⟨G, p, h⟩
    · subst h
      simp [sliceTo]
    · subst h
      exact ⟨fun _ => by simp, fun _ => ⟨G, sliceTo_init G p⟩⟩
  · rcases eq_nil_or_snoc fns with h | ⟨G, p, h⟩
    · subst h
      simp
    · subst h
      exact ⟨fun _ => by simp, fun _ => ⟨p, G, rfl, index_last G p, sliceTo_init G p,
        splitArgs_snoc order G p, QuickCheck_unfold Quote Check order t G p w1 w2⟩⟩
  · cases order
    · exact Or.inl rfl
    · exact Or.inr rfl

end Mint
